import Mathlib

/-!
Verification of the vectored-queue core (src/src/buffer.rs, src/src/queue.rs,
src/src/vectored.rs) against its specification, as a shallow embedding of the
sequential semantics of the code: atomics become plain fields, each CAS loop
succeeds on its first attempt (no concurrent interference), the bounded spin
of Buffer::get collapses to one comparison, and usize arithmetic is Nat with
wraparound mod 2 ^ 64 made explicit at the one site where it can occur.
A Rust panic is modelled as a distinguished outcome (assertFailed) or as none.
-/

namespace VQ

/-- Payload byte views: the contents of a [u8] slice. -/
abbrev Bytes := List Nat

/-- The number of usize values on a 64-bit platform, 2 ^ 64. -/
def usizeSize : Nat := 18446744073709551616

/-- CLOSED_FLAG = (usize::MAX >> 1) + 1 = 2 ^ 63 (src/src/queue.rs:16). -/
def CLOSED_FLAG : Nat := 9223372036854775808

/-- usize::MAX, the dequeue-ticket sentinel of pending_dequeue (queue.rs:146). -/
def SENTINEL : Nat := 18446744073709551615

/-- Wrapping usize subtraction a - b (Rust release semantics). -/
def wsub (a b : Nat) : Nat := (a + (usizeSize - b % usizeSize)) % usizeSize

variable {T : Type}

/-- Buffer<T> (src/src/buffer.rs:12): owned payload storage, the scatter/gather
slice array, and the published len and total_size. A storage slot is none
while uninitialized (MaybeUninit). -/
structure Buffer (T : Type) where
  owned : List (Option T)
  slices : List Bytes
  len : Nat
  total_size : Nat
deriving DecidableEq, Repr

/-- Buffer::capacity (buffer.rs:43): the length of the storage box. -/
def Buffer.capacity (b : Buffer T) : Nat := b.owned.length

/-- Buffer::resize (buffer.rs:51): only grows; replaces storage with capacity
uninitialized slots and the slice array with capacity + 2 empty slices. -/
def Buffer.resize (b : Buffer T) (capacity : Nat) : Buffer T :=
  if capacity > b.capacity then
    { b with owned := List.replicate capacity none
             slices := List.replicate (capacity + 2) [] }
  else b

/-- Buffer::default and Buffer::with_capacity (buffer.rs:23, buffer.rs:35):
empty boxes, resized when the requested capacity is positive. -/
def Buffer.withCapacity (capacity : Nat) : Buffer T :=
  let buffer : Buffer T := { owned := [], slices := [], len := 0, total_size := 0 }
  if capacity > 0 then buffer.resize capacity else buffer

/-- Buffer::get (buffer.rs:60). The bounded spin waits for the published len to
equal the expected one; in a sequential state len cannot change between the
iterations, so the loop is a single comparison. On success it returns the
slice view slices[..len + 2] and the published total_size. -/
def Buffer.get (b : Buffer T) (len : Nat) : Option (List Bytes × Nat) :=
  if b.len = len then some (b.slices.take (len + 2), b.total_size) else none

/-- Buffer::clear (buffer.rs:73): drops the first len storage slots and resets
the published counters; the slice array is left as it is. -/
def Buffer.clear (b : Buffer T) (len : Nat) : Buffer T :=
  { b with owned := (b.owned.take len).map (fun _ => none) ++ b.owned.drop len
           len := 0
           total_size := 0 }

/-- Buffer::insert (buffer.rs:86): reservation number slot writes the payload
into storage slot capacity - slot, publishes its byte view (asRef models
T: AsRef<[u8]>) at index capacity - slot + 1 of the slice array, and adds the
view length to total_size and one to len. Callers guarantee
1 <= slot <= capacity. -/
def Buffer.insert (asRef : T → Bytes) (b : Buffer T) (slot : Nat) (bytes : T) : Buffer T :=
  let index := b.capacity - slot
  { b with owned := b.owned.set index (some bytes)
           slices := b.slices.set (index + 1) (asRef bytes)
           total_size := b.total_size + (asRef bytes).length
           len := b.len + 1 }

/-- The tmp overflow pre-fill loop of try_dequeue (queue.rs:175): item number i
of the drained tmp vector is inserted at reservation number capa - i. -/
def Buffer.insertEnum (asRef : T → Bytes) (b : Buffer T) (capa : Nat) (items : List T) :
    Buffer T :=
  items.enum.foldl (fun acc it => acc.insert asRef (capa - it.1) it.2) b

/-- The outcomes of VectoredQueue::try_enqueue (src/src/error.rs:2). -/
inductive TryEnqueueResult (T : Type) where
  | ok
  | full (p : T)
  | closed (p : T)
deriving DecidableEq, Repr

/-- The outcomes of VectoredQueue::enqueue_unbounded: Ok or EnqueueError, which
means the queue is closed (src/src/error.rs:17). -/
inductive EnqueueResult (T : Type) where
  | ok
  | closed (p : T)
deriving DecidableEq, Repr

/-- The outcomes of VectoredQueue::try_dequeue with Ok(TryDequeueResult) and
Err(DequeueError) flattened, plus assertFailed for the panic of
assert_eq!(buffer_index, buffer_remain & 1) (queue.rs:154). A Vectored batch
is its buffer index, slice view and total size; the queue back-reference of
the Rust struct is the queue state returned alongside. -/
inductive DequeueStep (T : Type) where
  | conflict
  | closed
  | empty
  | pending
  | vectored (bufferIndex : Nat) (slices : List Bytes) (totalSize : Nat)
  | assertFailed
deriving DecidableEq, Repr

/-- VectoredQueue<T> (queue.rs:18), atomics as plain fields and the tmp
overflow vector without its mutex (sequential semantics). -/
structure Queue (T : Type) where
  buffer_remain : Nat
  pending_dequeue : Nat
  capacity : Nat
  buffers : Buffer T × Buffer T
  tmp : List T
deriving DecidableEq, Repr

/-- self.buffers[i] for i in {0, 1}. -/
def Queue.buf (q : Queue T) (i : Nat) : Buffer T :=
  if i = 0 then q.buffers.1 else q.buffers.2

/-- Replace self.buffers[i]. -/
def Queue.setBuf (q : Queue T) (i : Nat) (b : Buffer T) : Queue T :=
  if i = 0 then { q with buffers := (b, q.buffers.2) }
  else { q with buffers := (q.buffers.1, b) }

/-- VectoredQueue::with_capacity (queue.rs:37): buffer_remain = capacity << 1. -/
def Queue.withCapacity (capacity : Nat) : Queue T :=
  { buffer_remain := 2 * capacity
    pending_dequeue := 0
    capacity := capacity
    buffers := (Buffer.withCapacity capacity, Buffer.withCapacity capacity)
    tmp := [] }

/-- VectoredQueue::new (queue.rs:33). -/
def Queue.new : Queue T := Queue.withCapacity 0

/-- VectoredQueue::current_buffer (queue.rs:50): buffers[buffer_remain & 1]. -/
def Queue.currentBuffer (q : Queue T) : Buffer T := q.buf (q.buffer_remain % 2)

/-- VectoredQueue::capacity (queue.rs:54); named capacityFn because the Rust
method shares its name with the capacity field. -/
def Queue.capacityFn (q : Queue T) : Nat := q.currentBuffer.capacity

/-- VectoredQueue::set_capacity (queue.rs:58): monotone raise of the capacity
field; the CAS loop collapses sequentially to one compare and one store. -/
def Queue.setCapacity (q : Queue T) (capacity : Nat) : Queue T :=
  if capacity > q.capacity then { q with capacity := capacity } else q

/-- VectoredQueue::close (queue.rs:81): fetch_or of CLOSED_FLAG. For
r < 2 ^ 64, r | CLOSED_FLAG = r % CLOSED_FLAG + CLOSED_FLAG. -/
def Queue.close (q : Queue T) : Queue T :=
  { q with buffer_remain := q.buffer_remain % CLOSED_FLAG + CLOSED_FLAG }

/-- VectoredQueue::reopen (queue.rs:89): fetch_and of !CLOSED_FLAG, i.e.
r % CLOSED_FLAG for r < 2 ^ 64. -/
def Queue.reopen (q : Queue T) : Queue T :=
  { q with buffer_remain := q.buffer_remain % CLOSED_FLAG }

/-- VectoredQueue::try_enqueue (queue.rs:99). Sequentially the CAS succeeds on
its first attempt, so the loop is one pass: the closed check
(buffer_remain & CLOSED_FLAG != 0, i.e. bit 63), the full check
(buffer_remain >> 1 == 0), then the decrement by 2 and the insert at
reservation number buffer_remain >> 1 into buffers[buffer_remain & 1]. -/
def Queue.tryEnqueue (asRef : T → Bytes) (q : Queue T) (bytes : T) :
    Queue T × TryEnqueueResult T :=
  let r := q.buffer_remain
  if r / CLOSED_FLAG % 2 = 1 then (q, .closed bytes)
  else if r / 2 = 0 then (q, .full bytes)
  else
    let q1 : Queue T := { q with buffer_remain := r - 2 }
    (q1.setBuf (r % 2) ((q1.buf (r % 2)).insert asRef (r / 2) bytes), .ok)

/-- VectoredQueue::enqueue_unbounded (queue.rs:122). On Full with
capacity() == 0 it raises the capacity field to 1, grows both buffers to 1,
stores buffer_remain = 1 and recurses (try_enqueue leaves the queue unchanged
when it returns Full, so the state entering the Full arm is q itself);
otherwise a second Full pushes the payload onto the tmp overflow vector. -/
def Queue.enqueueUnbounded (asRef : T → Bytes) (q : Queue T) (bytes : T) :
    Queue T × EnqueueResult T :=
  match q.tryEnqueue asRef bytes with
  | (q1, .ok) => (q1, .ok)
  | (q1, .closed b) => (q1, .closed b)
  | (_, .full b) =>
    if hc : q.capacityFn = 0 then
      let qa := q.setCapacity 1
      let qb := qa.setBuf 0 ((qa.buf 0).resize 1)
      let qc := qb.setBuf 1 ((qb.buf 1).resize 1)
      let qd : Queue T := { qc with buffer_remain := 1 }
      qd.enqueueUnbounded asRef b
    else
      match q.tryEnqueue asRef b with
      | (q2, .ok) => (q2, .ok)
      | (q2, .closed b2) => (q2, .closed b2)
      | (q2, .full b2) => ({ q2 with tmp := q2.tmp ++ [b2] }, .ok)
termination_by (if q.capacityFn = 0 then 1 else 0)
decreasing_by
  simp only [hc, if_pos]
  have hcr : ∀ (b : Buffer T) (c : Nat), (b.resize c).capacity = max b.capacity c := by
    intro b c
    unfold Buffer.resize Buffer.capacity
    split
    · simp only [List.length_replicate]
      omega
    · omega
  have h2 : ∀ q' : Queue T, q'.buffer_remain = 1 →
      q'.buffers.2.capacity ≠ 0 → q'.capacityFn ≠ 0 := by
    intro q' h e
    simp [Queue.capacityFn, Queue.currentBuffer, Queue.buf, h, e]
  rw [if_neg]
  · omega
  · apply h2 _ rfl
    simp only [Queue.setBuf, Queue.buf, Queue.setCapacity]
    norm_num
    split <;> · simp [hcr]

/-- The snapshot step of try_dequeue (queue.rs:191): Buffer::get, and on its
timeout the Deferred ticket buffer_index | (len << 1) is stored (the shift
wraps mod 2 ^ 64; the or of the index bit is an addition since the shifted
length is even) and Pending is returned. -/
def Queue.snapshot (q : Queue T) (bufferIndex len : Nat) : Queue T × DequeueStep T :=
  match (q.buf bufferIndex).get len with
  | some (slices, totalSize) => (q, .vectored bufferIndex slices totalSize)
  | none => ({ q with pending_dequeue := bufferIndex + 2 * len % usizeSize }, .pending)

/-- VectoredQueue::try_dequeue (queue.rs:145), sequential semantics: the swap
takes the ticket, the rotate CAS loop succeeds on its first attempt (so the
buffer_remain it read is the value it replaced), and the subtraction
buffer_capa - (buffer_remain >> 1) at queue.rs:187 is usize subtraction, which
wraps mod 2 ^ 64 (note that it does not mask CLOSED_FLAG out of
buffer_remain). The decode r & 1 is r % 2, r >> 1 is r / 2,
r & !CLOSED_FLAG is r % CLOSED_FLAG, r & CLOSED_FLAG is
r / CLOSED_FLAG * CLOSED_FLAG, and !r & 1 is 1 - r % 2, all exact for
r < 2 ^ 64; the or building the new buffer_remain is an addition because the
operands occupy disjoint bits for every reachable capacity. -/
def Queue.tryDequeue (asRef : T → Bytes) (q : Queue T) : Queue T × DequeueStep T :=
  let pd := q.pending_dequeue
  let q0 : Queue T := { q with pending_dequeue := SENTINEL }
  if pd = SENTINEL then (q0, .conflict)
  else
    let bufferIndex := pd % 2
    let r := q0.buffer_remain
    if pd / 2 = 0 then
      if bufferIndex = r % 2 then
        let bufferCapa := (q0.buf bufferIndex).capacity
        if r % CLOSED_FLAG / 2 = bufferCapa then
          let q1 : Queue T := { q0 with pending_dequeue := pd }
          if r / CLOSED_FLAG % 2 = 1 then (q1, .closed) else (q1, .empty)
        else
          let nextIndex := 1 - r % 2
          let tmpLen := q0.tmp.length
          let nextCapa := max ((q0.buf nextIndex).capacity + tmpLen) q0.capacity
          let q1 := q0.setCapacity nextCapa
          let q2 := q1.setBuf nextIndex
            (((q1.buf nextIndex).resize nextCapa).insertEnum asRef nextCapa q1.tmp)
          let q3 : Queue T := { q2 with tmp := [] }
          let nextRemain := nextIndex + 2 * (nextCapa - tmpLen)
          let q4 : Queue T :=
            { q3 with buffer_remain := nextRemain + r / CLOSED_FLAG * CLOSED_FLAG }
          q4.snapshot bufferIndex (wsub bufferCapa (r / 2))
      else (q0, .assertFailed)
    else
      q0.snapshot bufferIndex (pd / 2)

/-- VectoredQueue::release (queue.rs:203), run when the Vectored batch drops:
clear the drained buffer and arm the next dequeue at the other index
(!buffer_index & 1 = 1 - buffer_index % 2 for buffer_index in {0, 1}). -/
def Queue.release (q : Queue T) (bufferIndex len : Nat) : Queue T :=
  let q1 := q.setBuf bufferIndex ((q.buf bufferIndex).clear len)
  { q1 with pending_dequeue := 1 - bufferIndex % 2 }

/-- Run try_enqueue once per payload in order, collecting the results. -/
def Queue.enqueueAll (asRef : T → Bytes) (q : Queue T) :
    List T → Queue T × List (TryEnqueueResult T)
  | [] => (q, [])
  | p :: ps =>
    let s := q.tryEnqueue asRef p
    let rest := s.1.enqueueAll asRef ps
    (rest.1, s.2 :: rest.2)

/-- The payload slice view of a batch: the Deref of Vectored
(src/src/vectored.rs:38), slices[1 .. len - 1], excluding the two framing
slots. -/
def payloadView (slices : List Bytes) : List Bytes := (slices.drop 1).dropLast

/-- The state of a fresh capacity-C queue after the payloads done were
successfully enqueued in order with try_enqueue: reservation numbers counted
down from C, so payload number j sits in storage slot j - 1 and slice slot j
of buffer 0; the remaining count is C minus the number of payloads. -/
def filledQueue (asRef : T → Bytes) (C : Nat) (done : List T) : Queue T :=
  { buffer_remain := 2 * (C - done.length)
    pending_dequeue := 0
    capacity := C
    buffers := ({ owned := done.map some ++ List.replicate (C - done.length) none
                  slices := [] :: (done.map asRef
                    ++ List.replicate (C - done.length + 1) [])
                  len := done.length
                  total_size := (done.map (fun p => (asRef p).length)).sum }
                , Buffer.withCapacity C)
    tmp := [] }

/-- Scenario S5, first step: unbounded-enqueue [9] on a fresh capacity-0
queue. -/
def s5Step1 : Queue Bytes × EnqueueResult Bytes :=
  Queue.enqueueUnbounded id (Queue.withCapacity 0) [9]

/-- Scenario S5, second step: unbounded-enqueue [8]. -/
def s5Step2 : Queue Bytes × EnqueueResult Bytes :=
  Queue.enqueueUnbounded id s5Step1.1 [8]

/-- Scenario S5, third step: unbounded-enqueue [7]. -/
def s5Step3 : Queue Bytes × EnqueueResult Bytes :=
  Queue.enqueueUnbounded id s5Step2.1 [7]

/-- A Bound of the Rust RangeBounds argument of Vectored::frame. -/
inductive RBound where
  | incl (n : Nat)
  | excl (n : Nat)
  | unb
deriving DecidableEq, Repr

/-- The decoded start of the range (src/src/vectored.rs:67). -/
def startOf : RBound → Nat
  | .incl n => n
  | .excl n => n + 1
  | .unb => 0

/-- The decoded end of the range (src/src/vectored.rs:72): Included n maps to
n + 2, Excluded n to n + 1, Unbounded to the length of the slice array. -/
def stopOf (slices : List Bytes) : RBound → Nat
  | .incl n => n + 2
  | .excl n => n + 1
  | .unb => slices.length

/-- What Vectored::frame builds (src/src/vectored.rs:88): the underlying slice
array after the swaps, the bounds of the sub-view lent to the caller, and the
swapped-out original slots the VectoredFrame keeps for restoration on drop. -/
structure FrameResult where
  newSlices : List Bytes
  fstart : Nat
  fstop : Nat
  header : Option Bytes
  trailer : Option Bytes
deriving DecidableEq, Repr

/-- Vectored::frame (src/src/vectored.rs:61) acting on the slice array of the
batch. none models a panic: an out-of-bounds index in a swap, the decrement
of end below zero, or an invalid sub-range start..end (start > end or
end > length). With a header the slot at the decoded start is swapped with
it, otherwise start is incremented; with a trailer the slot at the decoded
end minus one is swapped with it, otherwise end is decremented; the sub-view
is slices[start..end]. -/
def frame (slices : List Bytes) (startB endB : RBound) (header trailer : Option Bytes) :
    Option FrameResult :=
  let start0 := startOf startB
  let stop0 := stopOf slices endB
  let afterHeader : Option (List Bytes × Nat × Option Bytes) :=
    match header with
    | some h =>
      match slices[start0]? with
      | some old => some (slices.set start0 h, start0, some old)
      | none => none
    | none => some (slices, start0 + 1, none)
  match afterHeader with
  | none => none
  | some (s1, start1, hdr1) =>
    if stop0 = 0 then none
    else
      let afterTrailer : Option (List Bytes × Nat × Option Bytes) :=
        match trailer with
        | some t =>
          match s1[stop0 - 1]? with
          | some old => some (s1.set (stop0 - 1) t, stop0, some old)
          | none => none
        | none => some (s1, stop0 - 1, none)
      match afterTrailer with
      | none => none
      | some (s2, stop1, trl1) =>
        if start1 ≤ stop1 ∧ stop1 ≤ s2.length then
          some { newSlices := s2, fstart := start1, fstop := stop1,
                 header := hdr1, trailer := trl1 }
        else none

/-- The sub-view the VectoredFrame lends: underlying[fstart..fstop]. -/
def FrameResult.view (f : FrameResult) : List Bytes :=
  (f.newSlices.drop f.fstart).take (f.fstop - f.fstart)

/-- VectoredFrame::drop (src/src/vectored.rs:130): writes the kept header into
slot 0 of the sub-view and the kept trailer into its last slot, i.e.
underlying indices fstart and fstop - 1. none models the panic of indexing an
empty sub-view. -/
def frameDrop (f : FrameResult) : Option (List Bytes) :=
  let afterHeader : Option (List Bytes) :=
    match f.header with
    | some h => if f.fstart < f.fstop then some (f.newSlices.set f.fstart h) else none
    | none => some f.newSlices
  match afterHeader with
  | none => none
  | some s1 =>
    match f.trailer with
    | some t => if f.fstart < f.fstop then some (s1.set (f.fstop - 1) t) else none
    | none => some s1

/-! ## Claim theorems -/

set_option maxRecDepth 10000 in
/-- C1: claimed, the grow path of enqueue_unbounded on a fresh capacity-0 queue
resets buffer_remain to active_index = 0, remaining = 1, and three unbounded
enqueues followed by try_dequeue yield a batch of the three payloads. The code
instead stores buffer_remain = 1 (queue.rs:133), which decodes as
active_index = 1, remaining = 0: the three enqueues do return Ok, but every
payload lands in the tmp overflow vector, and the following try_dequeue panics
on its own assertion assert_eq!(buffer_index, buffer_remain & 1)
(queue.rs:154). This theorem evaluates the embedded code on that trace. -/
theorem c1_unbounded_grow_assert_panics :
    s5Step1.2 = .ok ∧ s5Step2.2 = .ok ∧ s5Step3.2 = .ok
    ∧ s5Step3.1.buffer_remain = 1 ∧ s5Step3.1.tmp = [[9], [8], [7]]
    ∧ (s5Step3.1.tryDequeue id).2 = .assertFailed := by
  simp [s5Step1, s5Step2, s5Step3,
    Queue.enqueueUnbounded.eq_def, Queue.tryEnqueue, Queue.withCapacity,
    Queue.capacityFn, Queue.currentBuffer, Queue.buf, Queue.setBuf, Queue.setCapacity,
    Queue.tryDequeue, Queue.snapshot, Buffer.get,
    Buffer.withCapacity, Buffer.resize, Buffer.capacity, Buffer.insert,
    CLOSED_FLAG, SENTINEL, usizeSize, wsub]

/-- C10: claimed, in a sequential execution try_dequeue never returns Pending
because the drained buffer's published len always equals the requested length
when the snapshot step is reached. Counter-trace on the code: with_capacity(1),
one successful try_enqueue, close(), then try_dequeue. The rotate path
computes the length as buffer_capa - (buffer_remain >> 1) (queue.rs:187)
without masking CLOSED_FLAG out of buffer_remain, so the subtraction
underflows (wraps in release, panics in debug), the requested length cannot
match the published len 1, and the code returns Pending. -/
theorem c10_sequential_pending_reachable :
    ((Queue.withCapacity (T := Bytes) 1).tryEnqueue id [5]).2 = .ok ∧
    (((((Queue.withCapacity (T := Bytes) 1).tryEnqueue id [5]).1).close).tryDequeue id).2
      = .pending := by
  constructor
  · decide
  · decide

/-- C5 counterexample: the claim says the earlier reserver, with the larger
reservation number, lands at the higher slice index. In a capacity-2 buffer
the first reserver has reservation number 2 and Buffer::insert places its view
at slice index capacity - 2 + 1 = 1, while the later reserver (number 1) is
placed at index capacity - 1 + 1 = 2; the earlier index 1 is not higher
than 2. -/
theorem c5_insert_order_counterexample :
    (((Buffer.withCapacity (T := Bytes) 2).insert id 2 [1]).insert id 1 [2]).slices
      = [[], [1], [2], []] ∧ ¬ (2 - 2 + 1 : Nat) > (2 - 1 + 1 : Nat) := by
  constructor
  · decide
  · decide

/-- C8 counterexample: the claim says frame returns without panicking for
every range/header/trailer combination, and names frame(0..0, None, None) as
an example. On any batch this call decodes start = 0, end = 1, then the None
header moves start to 1 and the None trailer moves end to 0, and the slice
indexing slices[1..0] panics (start greater than end); the model returns
none. Shown on the 0-payload batch whose slice array is the two framing
slots. -/
theorem c8_frame_empty_range_panics :
    frame ([[], []] : List Bytes) (.incl 0) (.excl 0) none none = none := by
  decide

/-- Buffer::insert leaves the capacity unchanged. -/
theorem Buffer.capacity_insert (asRef : T → Bytes) (b : Buffer T) (slot : Nat) (p : T) :
    (b.insert asRef slot p).capacity = b.capacity := by
  simp [Buffer.insert, Buffer.capacity]

/-- C4: a successful reservation number k in [1..C] makes Buffer::insert write
the payload into storage slot C - k, publish its byte view at index C - k + 1
of the slice array, add the view length to total_size and add one to len. -/
theorem c4_insert_slot_placement (asRef : T → Bytes) (b : Buffer T) (k : Nat) (p : T)
    (hk1 : 1 ≤ k) (hk2 : k ≤ b.capacity) (hs : b.slices.length = b.capacity + 2) :
    (b.insert asRef k p).owned = b.owned.set (b.capacity - k) (some p)
    ∧ (b.insert asRef k p).owned[b.capacity - k]? = some (some p)
    ∧ (b.insert asRef k p).slices = b.slices.set (b.capacity - k + 1) (asRef p)
    ∧ (b.insert asRef k p).slices[b.capacity - k + 1]? = some (asRef p)
    ∧ (b.insert asRef k p).total_size = b.total_size + (asRef p).length
    ∧ (b.insert asRef k p).len = b.len + 1 := by
  refine ⟨rfl, ?_, rfl, ?_, rfl, rfl⟩
  · show (b.owned.set (b.capacity - k) (some p))[b.capacity - k]? = some (some p)
    rw [List.getElem?_set_self]
    have : b.owned.length = b.capacity := rfl
    omega
  · show (b.slices.set (b.capacity - k + 1) (asRef p))[b.capacity - k + 1]? = some (asRef p)
    rw [List.getElem?_set_self]
    omega

/-- C4 witness: capacity 2, reservation number 1, payload [7]. -/
theorem c4_witness :
    (1 ≤ 1) ∧ (1 ≤ (Buffer.withCapacity (T := Bytes) 2).capacity)
    ∧ ((Buffer.withCapacity (T := Bytes) 2).slices.length
        = (Buffer.withCapacity (T := Bytes) 2).capacity + 2)
    ∧ (((Buffer.withCapacity (T := Bytes) 2).insert id 1 [7]).owned
        = (Buffer.withCapacity (T := Bytes) 2).owned.set
            ((Buffer.withCapacity (T := Bytes) 2).capacity - 1) (some [7])
      ∧ ((Buffer.withCapacity (T := Bytes) 2).insert id 1 [7]).owned[
          (Buffer.withCapacity (T := Bytes) 2).capacity - 1]? = some (some [7])
      ∧ ((Buffer.withCapacity (T := Bytes) 2).insert id 1 [7]).slices
        = (Buffer.withCapacity (T := Bytes) 2).slices.set
            ((Buffer.withCapacity (T := Bytes) 2).capacity - 1 + 1) (id [7])
      ∧ ((Buffer.withCapacity (T := Bytes) 2).insert id 1 [7]).slices[
          (Buffer.withCapacity (T := Bytes) 2).capacity - 1 + 1]? = some (id [7])
      ∧ ((Buffer.withCapacity (T := Bytes) 2).insert id 1 [7]).total_size
        = (Buffer.withCapacity (T := Bytes) 2).total_size + (id ([7] : Bytes)).length
      ∧ ((Buffer.withCapacity (T := Bytes) 2).insert id 1 [7]).len
        = (Buffer.withCapacity (T := Bytes) 2).len + 1) :=
  ⟨by decide, by decide, by decide,
    c4_insert_slot_placement id (Buffer.withCapacity 2) 1 [7]
      (by decide) (by decide) (by decide)⟩

/-- C5 amended: within one buffer the earlier reserver, which has the larger
reservation number, lands at a strictly lower slice index than the later
reserver: reservation k1 > k2 gives slice indices C - k1 + 1 < C - k2 + 1. -/
theorem c5_amended_insert_order (asRef : T → Bytes) (b : Buffer T) (k1 k2 : Nat)
    (p1 p2 : T) (h21 : k2 < k1) (hk2 : 1 ≤ k2) (hk1 : k1 ≤ b.capacity)
    (hs : b.slices.length = b.capacity + 2) :
    ((b.insert asRef k1 p1).insert asRef k2 p2).slices[b.capacity - k1 + 1]?
      = some (asRef p1)
    ∧ ((b.insert asRef k1 p1).insert asRef k2 p2).slices[b.capacity - k2 + 1]?
      = some (asRef p2)
    ∧ b.capacity - k1 + 1 < b.capacity - k2 + 1 := by
  have hc1 : (b.insert asRef k1 p1).capacity = b.capacity := Buffer.capacity_insert ..
  have hne : b.capacity - k1 + 1 ≠ b.capacity - k2 + 1 := by omega
  refine ⟨?_, ?_, by omega⟩
  · show ((b.insert asRef k1 p1).slices.set ((b.insert asRef k1 p1).capacity - k2 + 1)
      (asRef p2))[b.capacity - k1 + 1]? = some (asRef p1)
    rw [hc1, List.getElem?_set_ne hne.symm]
    show (b.slices.set (b.capacity - k1 + 1) (asRef p1))[b.capacity - k1 + 1]?
      = some (asRef p1)
    rw [List.getElem?_set_self]
    omega
  · show ((b.insert asRef k1 p1).slices.set ((b.insert asRef k1 p1).capacity - k2 + 1)
      (asRef p2))[b.capacity - k2 + 1]? = some (asRef p2)
    rw [hc1, List.getElem?_set_self]
    have : (b.insert asRef k1 p1).slices.length = b.slices.length := by
      simp [Buffer.insert]
    omega

/-- Reading back the buffer just stored. -/
theorem Queue.buf_setBuf_self (q : Queue T) (i : Nat) (b : Buffer T) :
    (q.setBuf i b).buf i = b := by
  simp only [Queue.setBuf, Queue.buf]
  split <;> simp_all

/-- Reading the other buffer after a store (indices in {0, 1}). -/
theorem Queue.buf_setBuf_ne (q : Queue T) (i j : Nat) (b : Buffer T)
    (hi : i ≤ 1) (hj : j ≤ 1) (h : j ≠ i) :
    (q.setBuf i b).buf j = q.buf j := by
  interval_cases i <;> interval_cases j <;> simp_all [Queue.setBuf, Queue.buf]

/-- setBuf only touches the buffers field. -/
theorem Queue.buffer_remain_setBuf (q : Queue T) (i : Nat) (b : Buffer T) :
    (q.setBuf i b).buffer_remain = q.buffer_remain := by
  simp only [Queue.setBuf]
  split <;> rfl

/-- C2: the case analysis of try_enqueue. With the closed bit set it returns
Closed carrying the same payload and the whole queue state unchanged; with the
bit clear and no remaining slot it returns Full with the payload and the state
unchanged; otherwise it returns Ok having decremented the remaining-slot count
by one (keeping the active index) and inserted the payload into the active
buffer at the old remaining count as reservation number. After close() every
try_enqueue returns Closed with its input, and after reopen() an enqueue can
succeed again (shown on a capacity-1 queue). -/
theorem c2_try_enqueue_cases (asRef : T → Bytes) (q : Queue T) (p : T) :
    (q.buffer_remain / CLOSED_FLAG % 2 = 1 → q.tryEnqueue asRef p = (q, .closed p))
    ∧ (q.buffer_remain / CLOSED_FLAG % 2 ≠ 1 → q.buffer_remain / 2 = 0 →
        q.tryEnqueue asRef p = (q, .full p))
    ∧ (q.buffer_remain / CLOSED_FLAG % 2 ≠ 1 → q.buffer_remain / 2 ≠ 0 →
        ((q.tryEnqueue asRef p).2 = .ok
        ∧ (q.tryEnqueue asRef p).1.buffer_remain / 2 + 1 = q.buffer_remain / 2
        ∧ (q.tryEnqueue asRef p).1.buffer_remain % 2 = q.buffer_remain % 2
        ∧ (q.tryEnqueue asRef p).1.buf (q.buffer_remain % 2)
            = (q.buf (q.buffer_remain % 2)).insert asRef (q.buffer_remain / 2) p
        ∧ (q.tryEnqueue asRef p).1.pending_dequeue = q.pending_dequeue
        ∧ (q.tryEnqueue asRef p).1.tmp = q.tmp))
    ∧ ((q.close).tryEnqueue asRef p = (q.close, .closed p))
    ∧ (∀ p2 : T, ((((Queue.withCapacity 1 (T := T)).close).reopen).tryEnqueue asRef p2).2
        = .ok) := by
  refine ⟨?_, ?_, ?_, ?_, ?_⟩
  · intro h1
    simp [Queue.tryEnqueue, h1]
  · intro h1 h2
    simp [Queue.tryEnqueue, h1, h2]
  · intro h1 h2
    have hr : 2 ≤ q.buffer_remain := by omega
    have e : q.tryEnqueue asRef p
        = (({ q with buffer_remain := q.buffer_remain - 2 } : Queue T).setBuf
            (q.buffer_remain % 2)
            ((({ q with buffer_remain := q.buffer_remain - 2 } : Queue T).buf
                (q.buffer_remain % 2)).insert asRef (q.buffer_remain / 2) p),
           .ok) := by
      simp only [Queue.tryEnqueue, if_neg h1, if_neg h2]
    rw [e]
    refine ⟨rfl, ?_, ?_, Queue.buf_setBuf_self .., ?_, ?_⟩
    · rw [Queue.buffer_remain_setBuf]
      show (q.buffer_remain - 2) / 2 + 1 = q.buffer_remain / 2
      omega
    · rw [Queue.buffer_remain_setBuf]
      show (q.buffer_remain - 2) % 2 = q.buffer_remain % 2
      omega
    · simp only [Queue.setBuf]
      split <;> rfl
    · simp only [Queue.setBuf]
      split <;> rfl
  · have h1 : (q.close).buffer_remain / CLOSED_FLAG % 2 = 1 := by
      simp only [Queue.close, CLOSED_FLAG]
      omega
    simp [Queue.tryEnqueue, h1]
  · intro p2
    simp only [Queue.withCapacity, Queue.close, Queue.reopen, Queue.tryEnqueue,
      CLOSED_FLAG]
    norm_num

/-- C2 witness: a capacity-1 queue is not closed and has a remaining slot, and
try_enqueue on it succeeds with the described state change. -/
theorem c2_witness :
    (Queue.withCapacity (T := Bytes) 1).buffer_remain / CLOSED_FLAG % 2 ≠ 1
    ∧ (Queue.withCapacity (T := Bytes) 1).buffer_remain / 2 ≠ 0
    ∧ (((Queue.withCapacity (T := Bytes) 1).tryEnqueue id [5]).2 = .ok
      ∧ ((Queue.withCapacity (T := Bytes) 1).tryEnqueue id [5]).1.buffer_remain / 2 + 1
          = (Queue.withCapacity (T := Bytes) 1).buffer_remain / 2
      ∧ ((Queue.withCapacity (T := Bytes) 1).tryEnqueue id [5]).1.buffer_remain % 2
          = (Queue.withCapacity (T := Bytes) 1).buffer_remain % 2
      ∧ ((Queue.withCapacity (T := Bytes) 1).tryEnqueue id [5]).1.buf
            ((Queue.withCapacity (T := Bytes) 1).buffer_remain % 2)
          = ((Queue.withCapacity (T := Bytes) 1).buf
              ((Queue.withCapacity (T := Bytes) 1).buffer_remain % 2)).insert id
              ((Queue.withCapacity (T := Bytes) 1).buffer_remain / 2) [5]
      ∧ ((Queue.withCapacity (T := Bytes) 1).tryEnqueue id [5]).1.pending_dequeue
          = (Queue.withCapacity (T := Bytes) 1).pending_dequeue
      ∧ ((Queue.withCapacity (T := Bytes) 1).tryEnqueue id [5]).1.tmp
          = (Queue.withCapacity (T := Bytes) 1).tmp) :=
  ⟨by decide, by decide,
    (c2_try_enqueue_cases id (Queue.withCapacity 1) [5]).2.2.1 (by decide) (by decide)⟩

/-- C6: when try_dequeue takes the ticket in an Armed state (no deferred
length, the ticket index agreeing with the active index) and the active
buffer has no used slot (the masked remaining count equals its capacity), it
stores the ticket back unchanged and returns Closed when the closed bit is
set, Empty otherwise, with the queue state left exactly as it was. -/
theorem c6_empty_dequeue_closed_or_empty (asRef : T → Bytes) (q : Queue T)
    (h1 : q.pending_dequeue ≠ SENTINEL)
    (h2 : q.pending_dequeue / 2 = 0)
    (h3 : q.pending_dequeue % 2 = q.buffer_remain % 2)
    (h4 : q.buffer_remain % CLOSED_FLAG / 2 = (q.buf (q.pending_dequeue % 2)).capacity) :
    q.tryDequeue asRef
      = (q, if q.buffer_remain / CLOSED_FLAG % 2 = 1
            then DequeueStep.closed else DequeueStep.empty) := by
  have h4' : q.buffer_remain % CLOSED_FLAG / 2
      = (({ q with pending_dequeue := SENTINEL } : Queue T).buf
          (q.pending_dequeue % 2)).capacity := h4
  simp only [Queue.tryDequeue]
  rw [if_neg h1, if_pos h2, if_pos h3, if_pos h4']
  by_cases hcl : q.buffer_remain / CLOSED_FLAG % 2 = 1 <;> simp [hcl]

/-- C6 witness: a closed, empty capacity-3 queue; try_dequeue returns Closed
and leaves the state unchanged. -/
theorem c6_witness :
    ((Queue.withCapacity (T := Bytes) 3).close).pending_dequeue ≠ SENTINEL
    ∧ ((Queue.withCapacity (T := Bytes) 3).close).pending_dequeue / 2 = 0
    ∧ ((Queue.withCapacity (T := Bytes) 3).close).pending_dequeue % 2
        = ((Queue.withCapacity (T := Bytes) 3).close).buffer_remain % 2
    ∧ ((Queue.withCapacity (T := Bytes) 3).close).buffer_remain % CLOSED_FLAG / 2
        = (((Queue.withCapacity (T := Bytes) 3).close).buf
            (((Queue.withCapacity (T := Bytes) 3).close).pending_dequeue % 2)).capacity
    ∧ ((Queue.withCapacity (T := Bytes) 3).close).tryDequeue id
        = ((Queue.withCapacity (T := Bytes) 3).close,
           if ((Queue.withCapacity (T := Bytes) 3).close).buffer_remain / CLOSED_FLAG % 2 = 1
           then DequeueStep.closed else DequeueStep.empty) :=
  ⟨by decide, by decide, by decide, by decide,
    c6_empty_dequeue_closed_or_empty id ((Queue.withCapacity 3).close)
      (by decide) (by decide) (by decide) (by decide)⟩

/-- An index carrying a some value of getElem? is within bounds. -/
theorem lt_of_getElem?_eq_some {α : Type} {l : List α} {i : Nat} {x : α}
    (hg : l[i]? = some x) : i < l.length := by
  by_contra hh
  rw [List.getElem?_eq_none_iff.mpr (by omega)] at hg
  exact Option.noConfusion hg

/-- C7: on a batch slice array of n + 2 slots, frame over the full range with
header h and trailer t succeeds and lends a sub-view of n + 2 slices that
begins with h, ends with t and keeps the n payload slices in between
unchanged; dropping the frame restores the two swapped slots, so the
underlying slice array afterwards equals what it was before the frame call. -/
theorem c7_frame_full_range_swap_restore (n : Nat) (s : List Bytes) (h t : Bytes)
    (hs : s.length = n + 2) :
    ∃ f : FrameResult,
      frame s .unb .unb (some h) (some t) = some f
      ∧ f.view = h :: ((s.drop 1).dropLast ++ [t])
      ∧ f.view.length = n + 2
      ∧ frameDrop f = some s := by
  obtain ⟨a, s1, rfl⟩ : ∃ a s1, s = a :: s1 := by
    cases s with
    | nil => simp at hs
    | cons a s1 => exact ⟨a, s1, rfl⟩
  have hne : s1 ≠ [] := by
    intro e
    subst e
    simp at hs
  obtain ⟨mid, b, rfl⟩ : ∃ mid b, s1 = mid ++ [b] :=
    ⟨s1.dropLast, s1.getLast hne, (List.dropLast_concat_getLast hne).symm⟩
  have hmid : mid.length = n := by
    simp at hs
    omega
  refine ⟨⟨h :: mid ++ [t], 0, (a :: mid ++ [b] : List Bytes).length, some a, some b⟩,
    ?_, ?_, ?_, ?_⟩
  · simp [frame, startOf, stopOf, List.getElem?_concat_length, List.set_append_right,
      hmid]
  · simp [FrameResult.view, hmid]
  · simp [FrameResult.view, hmid]
  · simp [frameDrop, List.set_append_right, hmid]

/-- C7 witness: the one-payload batch [[], [5], []] framed with header [1] and
trailer [2]. -/
theorem c7_witness :
    (([[], [5], []] : List Bytes).length = 1 + 2)
    ∧ ∃ f : FrameResult,
        frame ([[], [5], []] : List Bytes) .unb .unb (some [1]) (some [2]) = some f
        ∧ f.view = [1] :: ((([[], [5], []] : List Bytes).drop 1).dropLast ++ [[2]])
        ∧ f.view.length = 1 + 2
        ∧ frameDrop f = some [[], [5], []] :=
  ⟨by decide, c7_frame_full_range_swap_restore 1 [[], [5], []] [1] [2] (by decide)⟩

/-- C8 amended: frame does not panic whenever its indices are in bounds: the
decoded start is within the slice array when a header is present, the decoded
end is positive, the decoded end minus one is within the array when a trailer
is present, and the adjusted sub-range bounds satisfy start at most end at
most length. (The claim as stated, that every range/header/trailer
combination returns without panicking, fails: frame(0..0, None, None)
computes the sub-range 1..0 and panics; see the counterexample.) -/
theorem c8_amended_frame_in_bounds_no_panic (s : List Bytes) (sb eb : RBound)
    (hdr trl : Option Bytes)
    (hh : hdr.isSome = true → startOf sb < s.length)
    (h1 : 1 ≤ stopOf s eb)
    (ht : trl.isSome = true → stopOf s eb - 1 < s.length)
    (h2 : (if hdr.isSome then startOf sb else startOf sb + 1)
        ≤ (if trl.isSome then stopOf s eb else stopOf s eb - 1))
    (h3 : (if trl.isSome then stopOf s eb else stopOf s eb - 1) ≤ s.length) :
    (frame s sb eb hdr trl).isSome = true := by
  rcases hdr with _ | h0 <;> rcases trl with _ | t0 <;>
    simp only [Option.isSome_none, Option.isSome_some, Bool.false_eq_true,
      false_implies, true_implies, ite_true, ite_false] at hh ht h2 h3 <;>
    simp only [frame]
  · have hstop : ¬ stopOf s eb = 0 := by omega
    have hcond : startOf sb + 1 ≤ stopOf s eb - 1 ∧ stopOf s eb - 1 ≤ s.length := by
      omega
    simp [hstop, hcond]
  · rw [List.getElem?_eq_getElem (by omega)]
    have hstop : ¬ stopOf s eb = 0 := by omega
    have hcond : startOf sb + 1 ≤ stopOf s eb
        ∧ stopOf s eb ≤ (s.set (stopOf s eb - 1) t0).length := by
      simp only [List.length_set]
      omega
    simp [hstop, hcond]
    omega
  · rw [List.getElem?_eq_getElem (by omega)]
    have hstop : ¬ stopOf s eb = 0 := by omega
    have hcond : startOf sb ≤ stopOf s eb - 1
        ∧ stopOf s eb - 1 ≤ (s.set (startOf sb) h0).length := by
      simp only [List.length_set]
      omega
    simp [hstop, hcond]
    omega
  · rw [List.getElem?_eq_getElem (by omega)]
    have hstop : ¬ stopOf s eb = 0 := by omega
    obtain ⟨old2, hget2⟩ : ∃ x, (s.set (startOf sb) h0)[stopOf s eb - 1]? = some x :=
      ⟨_, List.getElem?_eq_getElem (by simp only [List.length_set]; omega)⟩
    have hcond : startOf sb ≤ stopOf s eb
        ∧ stopOf s eb ≤ ((s.set (startOf sb) h0).set (stopOf s eb - 1) t0).length := by
      simp only [List.length_set]
      omega
    simp [hstop, hget2, hcond]
    omega

/-- C8 amended witness: full-range framing of [[], [5], []] with header [1]
and trailer [2] is within bounds and does not panic. -/
theorem c8_amended_witness :
    ((some ([1] : Bytes)).isSome = true
      → startOf .unb < ([[], [5], []] : List Bytes).length)
    ∧ 1 ≤ stopOf ([[], [5], []] : List Bytes) .unb
    ∧ ((some ([2] : Bytes)).isSome = true
      → stopOf ([[], [5], []] : List Bytes) .unb - 1 < ([[], [5], []] : List Bytes).length)
    ∧ ((if (some ([1] : Bytes)).isSome then startOf .unb else startOf .unb + 1)
        ≤ (if (some ([2] : Bytes)).isSome then stopOf ([[], [5], []] : List Bytes) .unb
           else stopOf ([[], [5], []] : List Bytes) .unb - 1))
    ∧ ((if (some ([2] : Bytes)).isSome then stopOf ([[], [5], []] : List Bytes) .unb
        else stopOf ([[], [5], []] : List Bytes) .unb - 1)
          ≤ ([[], [5], []] : List Bytes).length)
    ∧ (frame ([[], [5], []] : List Bytes) .unb .unb (some [1]) (some [2])).isSome = true :=
  ⟨by decide, by decide, by decide, by decide, by decide,
    c8_amended_frame_in_bounds_no_panic [[], [5], []] .unb .unb (some [1]) (some [2])
      (by decide) (by decide) (by decide) (by decide) (by decide)⟩

/-- C9: pending_dequeue is never stored as Deferred with length zero: whenever
try_dequeue returns Pending, the value stored into pending_dequeue has a
non-zero length field (the value shifted right by one is non-zero), for every
queue state whose words are in usize range, whose active-buffer capacity is
below 2 ^ 61 and whose masked remaining count is at most that capacity
(every state the code can reach satisfies these). On the deferred path the
stored length is the non-zero resumed length; on the rotate path it is
capacity minus the remaining count (non-zero because the empty check returned
early), or, with the closed bit unmasked at queue.rs:187, a wrapped value
whose shifted half is still non-zero. -/
theorem c9_pending_store_nonzero_length (asRef : T → Bytes) (q : Queue T)
    (hpd : q.pending_dequeue < usizeSize)
    (hcap : (q.buf (q.pending_dequeue % 2)).capacity < 2 ^ 61)
    (hrem : q.buffer_remain % CLOSED_FLAG / 2 ≤ (q.buf (q.pending_dequeue % 2)).capacity)
    (q2 : Queue T)
    (hp : q.tryDequeue asRef = (q2, DequeueStep.pending)) :
    q2.pending_dequeue / 2 ≠ 0 := by
  have hcap2 : (({ q with pending_dequeue := SENTINEL } : Queue T).buf
      (q.pending_dequeue % 2)).capacity < 2 ^ 61 := hcap
  have hrem2 : q.buffer_remain % CLOSED_FLAG / 2
      ≤ (({ q with pending_dequeue := SENTINEL } : Queue T).buf
          (q.pending_dequeue % 2)).capacity := hrem
  simp only [Queue.tryDequeue] at hp
  split at hp
  · simp at hp
  · split at hp
    · split at hp
      · split at hp
        · split at hp <;> simp at hp
        · next hempty =>
            simp only [Queue.snapshot] at hp
            split at hp
            · simp at hp
            · rw [Prod.mk.injEq] at hp
              obtain ⟨hq2, -⟩ := hp
              subst hq2
              simp only [wsub, usizeSize, CLOSED_FLAG] at *
              omega
      · simp at hp
    · next hdef0 =>
        simp only [Queue.snapshot] at hp
        split at hp
        · simp at hp
        · rw [Prod.mk.injEq] at hp
          obtain ⟨hq2, -⟩ := hp
          subst hq2
          simp only [wsub, usizeSize, CLOSED_FLAG] at *
          omega

/-- C9 witness: a capacity-1 queue whose producer has reserved the slot but
not yet inserted (buffer_remain 0, buffer len 0); try_dequeue rotates,
requests length 1, times out and stores pending_dequeue = 2, whose length
field is 1. -/
theorem c9_witness :
    ({ buffer_remain := 0, pending_dequeue := 0, capacity := 1,
        buffers := (Buffer.withCapacity 1, Buffer.withCapacity 1), tmp := [] }
      : Queue Bytes).pending_dequeue < usizeSize
    ∧ (({ buffer_remain := 0, pending_dequeue := 0, capacity := 1,
          buffers := (Buffer.withCapacity 1, Buffer.withCapacity 1), tmp := [] }
        : Queue Bytes).buf
          (({ buffer_remain := 0, pending_dequeue := 0, capacity := 1,
              buffers := (Buffer.withCapacity 1, Buffer.withCapacity 1), tmp := [] }
            : Queue Bytes).pending_dequeue % 2)).capacity < 2 ^ 61
    ∧ ({ buffer_remain := 0, pending_dequeue := 0, capacity := 1,
          buffers := (Buffer.withCapacity 1, Buffer.withCapacity 1), tmp := [] }
        : Queue Bytes).buffer_remain % CLOSED_FLAG / 2
        ≤ (({ buffer_remain := 0, pending_dequeue := 0, capacity := 1,
              buffers := (Buffer.withCapacity 1, Buffer.withCapacity 1), tmp := [] }
            : Queue Bytes).buf
              (({ buffer_remain := 0, pending_dequeue := 0, capacity := 1,
                  buffers := (Buffer.withCapacity 1, Buffer.withCapacity 1), tmp := [] }
                : Queue Bytes).pending_dequeue % 2)).capacity
    ∧ (({ buffer_remain := 0, pending_dequeue := 0, capacity := 1,
          buffers := (Buffer.withCapacity 1, Buffer.withCapacity 1), tmp := [] }
        : Queue Bytes).tryDequeue id
        = ({ buffer_remain := 3, pending_dequeue := 2, capacity := 1,
             buffers := (Buffer.withCapacity 1, Buffer.withCapacity 1), tmp := [] },
           DequeueStep.pending))
    ∧ ({ buffer_remain := 3, pending_dequeue := 2, capacity := 1,
          buffers := (Buffer.withCapacity 1, Buffer.withCapacity 1), tmp := [] }
        : Queue Bytes).pending_dequeue / 2 ≠ 0 :=
  ⟨by decide, by decide, by decide, by decide,
    c9_pending_store_nonzero_length id
      { buffer_remain := 0, pending_dequeue := 0, capacity := 1,
        buffers := (Buffer.withCapacity 1, Buffer.withCapacity 1), tmp := [] }
      (by decide) (by decide) (by decide)
      { buffer_remain := 3, pending_dequeue := 2, capacity := 1,
        buffers := (Buffer.withCapacity 1, Buffer.withCapacity 1), tmp := [] }
      (by decide)⟩

/-- C5 amended witness: capacity 3, reservation numbers 3 then 1. -/
theorem c5_amended_witness :
    (1 ≤ 1) ∧ (3 ≤ (Buffer.withCapacity (T := Bytes) 3).capacity)
    ∧ ((Buffer.withCapacity (T := Bytes) 3).slices.length
        = (Buffer.withCapacity (T := Bytes) 3).capacity + 2)
    ∧ ((((Buffer.withCapacity (T := Bytes) 3).insert id 3 [1]).insert id 1 [2]).slices[
          (Buffer.withCapacity (T := Bytes) 3).capacity - 3 + 1]? = some (id [1])
      ∧ (((Buffer.withCapacity (T := Bytes) 3).insert id 3 [1]).insert id 1 [2]).slices[
          (Buffer.withCapacity (T := Bytes) 3).capacity - 1 + 1]? = some (id [2])
      ∧ (Buffer.withCapacity (T := Bytes) 3).capacity - 3 + 1
        < (Buffer.withCapacity (T := Bytes) 3).capacity - 1 + 1) :=
  ⟨by decide, by decide, by decide,
    c5_amended_insert_order id (Buffer.withCapacity 3) 3 1 [1] [2]
      (by decide) (by decide) (by decide) (by decide)⟩


/-- The state reached by a fresh with_capacity(C) queue is filledQueue C []
(with the head framing slot of the C + 2 empty slices written explicitly). -/
theorem withCapacity_eq_filled (asRef : T → Bytes) (C : Nat) (hC : 1 ≤ C) :
    (Queue.withCapacity C : Queue T) = filledQueue asRef C [] := by
  have h2 : List.replicate (C + 2) (([] : Bytes)) = [] :: List.replicate (C + 1) [] := by
    rw [show C + 2 = (C + 1) + 1 by omega, List.replicate_succ]
  simp only [Queue.withCapacity, filledQueue, List.map_nil, List.nil_append,
    List.length_nil, Nat.sub_zero, List.sum_nil, Queue.mk.injEq, Prod.mk.injEq,
    Buffer.withCapacity, Buffer.resize, Buffer.capacity]
  rw [if_pos (show C > 0 by omega)]
  simp [h2]
  omega

/-- One successful try_enqueue on a partially filled fresh queue appends its
payload: reservation number C - done.length places it at storage slot
done.length and slice slot done.length + 1. -/
theorem tryEnqueue_filled (asRef : T → Bytes) (C : Nat) (done : List T) (p : T)
    (hn : done.length < C) (hC : C < 2 ^ 62) :
    (filledQueue asRef C done).tryEnqueue asRef p
      = (filledQueue asRef C (done ++ [p]), .ok) := by
  obtain ⟨m, hm⟩ : ∃ m, C - done.length = m + 1 := ⟨C - done.length - 1, by omega⟩
  have hcl : ¬ 2 * (C - done.length) / CLOSED_FLAG % 2 = 1 := by
    simp only [CLOSED_FLAG]
    omega
  have hfull : ¬ 2 * (C - done.length) / 2 = 0 := by omega
  have hmod : 2 * (C - done.length) % 2 = 0 := by omega
  have hdiv : 2 * (C - done.length) / 2 = C - done.length := by omega
  have hlen : done.length + (C - done.length) = C := by omega
  have hidx : C - (C - done.length) = done.length := by omega
  have harith : 2 * (C - done.length) - 2 = 2 * (C - (done.length + 1)) := by omega
  have howned : (List.map some done ++ List.replicate (C - done.length)
        (none : Option T)).set done.length (some p)
      = List.map some done ++ some p :: List.replicate (C - (done.length + 1)) none := by
    rw [List.set_append_right _ _ (by simp)]
    rw [hm, List.replicate_succ]
    simp [show m = C - (done.length + 1) by omega]
  have hslices : (([] : Bytes) :: (List.map asRef done
        ++ List.replicate (C - done.length + 1) [])).set (done.length + 1) (asRef p)
      = [] :: (List.map asRef done
          ++ asRef p :: List.replicate (C - (done.length + 1) + 1) []) := by
    rw [List.set]
    rw [List.set_append_right _ _ (by simp)]
    rw [hm, show m + 1 + 1 = (m + 1) + 1 by omega, List.replicate_succ]
    simp [show m + 1 = C - (done.length + 1) + 1 by omega]
  simp only [filledQueue, Queue.tryEnqueue, if_neg hcl, if_neg hfull, hmod, hdiv,
    eq_self_iff_true, if_true, Queue.setBuf, Queue.buf, Buffer.insert,
    Buffer.capacity, List.length_append, List.length_map, List.length_replicate,
    hlen, hidx, harith, howned, hslices]
  simp [List.sum_append]
  omega

/-- Buffer::with_capacity produces a buffer of the requested capacity. -/
theorem Buffer.capacity_withCapacity (c : Nat) :
    (Buffer.withCapacity c : Buffer T).capacity = c := by
  by_cases hc : c > 0 <;>
    simp [Buffer.withCapacity, Buffer.resize, Buffer.capacity, hc] <;> omega

/-- Enqueuing a list of payloads onto a partially filled fresh queue with
room for all of them succeeds throughout and appends them in order. -/
theorem enqueueAll_filled (asRef : T → Bytes) (C : Nat) (done ps : List T)
    (h : done.length + ps.length ≤ C) (hC : C < 2 ^ 62) :
    (filledQueue asRef C done).enqueueAll asRef ps
      = (filledQueue asRef C (done ++ ps), List.replicate ps.length .ok) := by
  induction ps generalizing done with
  | nil => simp [Queue.enqueueAll]
  | cons p ps ih =>
    simp only [Queue.enqueueAll]
    rw [tryEnqueue_filled asRef C done p (by simp only [List.length_cons] at h; omega) hC]
    rw [ih (done ++ [p]) (by simp only [List.length_cons] at h; simp; omega)]
    simp [List.replicate_succ]

/-- try_dequeue on a filled fresh queue rotates and returns the batch whose
slice view is the empty head framing slot, the payload views in enqueue
order, and the empty tail framing slot, with the published total size. -/
theorem tryDequeue_filled (asRef : T → Bytes) (C : Nat) (done : List T)
    (h1 : 1 ≤ done.length) (h2 : done.length ≤ C) (hC : C < 2 ^ 62) :
    ((filledQueue asRef C done).tryDequeue asRef).2
      = DequeueStep.vectored 0 ([] :: (List.map asRef done ++ [[]]))
          ((List.map (fun p => (asRef p).length) done).sum) := by
  have hsent : ¬ (0 : Nat) = SENTINEL := by simp [SENTINEL]
  have hmod : 2 * (C - done.length) % 2 = 0 := by omega
  have hmasked : 2 * (C - done.length) % CLOSED_FLAG = 2 * (C - done.length) := by
    simp only [CLOSED_FLAG]
    omega
  have hdiv : 2 * (C - done.length) / 2 = C - done.length := by omega
  have hnemp : ¬ (C - done.length = C) := by omega
  have hdivCF : 2 * (C - done.length) / CLOSED_FLAG = 0 := by
    simp only [CLOSED_FLAG]
    omega
  have hws : wsub C (C - done.length) = done.length := by
    simp only [wsub, usizeSize]
    omega
  have hirr : ¬ C < C := by omega
  have hone : ¬ (1 : Nat) = 0 := by omega
  have htake : (([] : Bytes) :: (List.map asRef done
        ++ List.replicate (C - done.length + 1) [])).take (done.length + 2)
      = [] :: (List.map asRef done ++ [[]]) := by
    rw [show done.length + 2 = (done.length + 1) + 1 by omega, List.take_succ_cons]
    rw [List.take_append_eq_append_take]
    rw [List.take_of_length_le (by simp)]
    simp [List.replicate_succ]
  have hcaplit : ({ owned := List.map some done ++ List.replicate (C - done.length) none
                    slices := [] :: (List.map asRef done
                      ++ List.replicate (C - done.length + 1) [])
                    len := done.length
                    total_size := (List.map (fun p => (asRef p).length) done).sum }
      : Buffer T).capacity = C := by
    simp [Buffer.capacity]
    omega
  simp only [filledQueue, Queue.tryDequeue, Queue.snapshot, Queue.buf,
    Queue.setBuf, Queue.setCapacity, Buffer.insertEnum, Buffer.resize,
    Buffer.get, Buffer.capacity_withCapacity, hcaplit,
    if_neg hsent, hmod, hdiv, hmasked, if_neg hnemp, hdivCF, hws, htake, hirr,
    hone, Nat.sub_zero, List.length_nil, Nat.add_zero, Nat.max_self,
    List.enum_nil, List.foldl_nil, eq_self_iff_true, if_true, if_false]

/-- C3: after a sequence of successful try_enqueue calls on a fresh queue
with room for them, try_dequeue returns a Vectored batch whose payload slices
are exactly the byte views of the enqueued payloads in order and whose
total size equals the sum of the byte-lengths of those slices. -/
theorem c3_batch_byte_identity_and_total_size (asRef : T → Bytes) (C : Nat) (ps : List T)
    (h1 : 1 ≤ ps.length) (h2 : ps.length ≤ C) (hC : C < 2 ^ 62) :
    (∀ r ∈ ((Queue.withCapacity C : Queue T).enqueueAll asRef ps).2, r = .ok)
    ∧ ((((Queue.withCapacity C : Queue T).enqueueAll asRef ps).1.tryDequeue asRef).2
        = DequeueStep.vectored 0 ([] :: (List.map asRef ps ++ [[]]))
            ((List.map (fun p => (asRef p).length) ps).sum))
    ∧ payloadView ([] :: (List.map asRef ps ++ [[]])) = List.map asRef ps
    ∧ (List.map (fun p => (asRef p).length) ps).sum
        = (List.map List.length (List.map asRef ps)).sum := by
  rw [withCapacity_eq_filled asRef C (by omega)]
  rw [enqueueAll_filled asRef C [] ps (by simpa using h2) hC]
  refine ⟨?_, ?_, ?_, ?_⟩
  · intro r hr
    exact List.eq_of_mem_replicate hr
  · simpa using tryDequeue_filled asRef C ps (by simpa using h1) h2 hC
  · simp [payloadView]
  · simp [List.map_map]
    rfl

/-- C3 witness: capacity 2, payloads [1] and [2, 3]. -/
theorem c3_witness :
    (1 ≤ ([[1], [2, 3]] : List Bytes).length)
    ∧ (([[1], [2, 3]] : List Bytes).length ≤ 2)
    ∧ ((2 : Nat) < 2 ^ 62)
    ∧ ((∀ r ∈ ((Queue.withCapacity 2 : Queue Bytes).enqueueAll id [[1], [2, 3]]).2,
          r = .ok)
      ∧ ((((Queue.withCapacity 2 : Queue Bytes).enqueueAll id [[1], [2, 3]]).1.tryDequeue
            id).2
          = DequeueStep.vectored 0 ([] :: (List.map id [[1], [2, 3]] ++ [[]]))
              ((List.map (fun p => (id p).length) [[1], [2, 3]]).sum))
      ∧ payloadView ([] :: (List.map id [[1], [2, 3]] ++ [[]]))
          = List.map id [[1], [2, 3]]
      ∧ (List.map (fun p => (id p).length) [[1], [2, 3]]).sum
          = (List.map List.length (List.map id [[1], [2, 3]])).sum) :=
  ⟨by decide, by decide, by decide,
    c3_batch_byte_identity_and_total_size id 2 [[1], [2, 3]]
      (by decide) (by decide) (by decide)⟩

end VQ
